import Mathlib

/-!
Verification of the AI orchestration and recipe-normalization layer of the
smart-snap-feast repository (src/services/openai.ts and src/services/ai.ts).

The TypeScript code is shallowly embedded: dynamic JSON values become the
inductive `JVal`, JavaScript string operations become executable functions on
`List Char` / `String`, fallible code returns `Except`, and the network calls
made by `fetch` are abstracted by an `HttpResult` oracle passed as an argument
(the code never inspects anything about the network beyond status, body
message and body content).  Nondeterministic presentation fields of the
canonical recipe (`id`, `createdAt`, both built from `Date.now()` and
`Math.random()`, and `image`, built from the title via a stock-photo URL
table) are omitted from the embedded `Recipe`; no claim mentions them.
-/

namespace SmartSnap

/-- Dynamic JSON-ish value, the shape of everything `JSON.parse` can return
and of the untyped `recipeData` handled by the services.  JavaScript
`undefined` and `null` are conflated into `jnull`: for every operation the
embedding uses (truthiness, `||` defaulting, `String(...)` coercion followed
by `parseInt`, property access) the two behave identically or lead to the
same rejection of the claim under scrutiny. Numbers are modelled as integers;
the numeric values exercised by the services (cook time, servings, array
lengths) are integral. -/
inductive JVal where
  | jnull : JVal
  | jbool : Bool → JVal
  | jnum : Int → JVal
  | jstr : String → JVal
  | jarr : List JVal → JVal
  | jobj : List (String × JVal) → JVal
deriving Repr

/-- JavaScript truthiness (`!!v`): `undefined`/`null`, `false`, `0` and the
empty string are falsy; every array and object is truthy. -/
def truthy : JVal → Bool
  | .jnull => false
  | .jbool b => b
  | .jnum n => !(n == 0)
  | .jstr s => !(s == "")
  | .jarr _ => true
  | .jobj _ => true

/-- Field lookup in an object literal; the last binding of a key wins, as for
duplicate keys in `JSON.parse`.  A missing key is JavaScript `undefined`,
modelled as `jnull`. -/
def lookupField : List (String × JVal) → String → JVal
  | [], _ => .jnull
  | (k, x) :: rest, field =>
    match lookupField rest field with
    | .jnull => if k == field then x else .jnull
    | v => v

/-- JavaScript property access `v[field]` as used on the untyped recipe data:
objects look the field up, any other value yields `undefined` (`jnull`).
(On a literal `null` receiver JavaScript instead throws a `TypeError`; in the
services that access is only reached behind truthiness guards or inside a
catch-all that maps both outcomes to the same rejection.) -/
def jvGet (v : JVal) (field : String) : JVal :=
  match v with
  | .jobj fs => lookupField fs field
  | _ => .jnull

/-- JavaScript strict equality `v === 0`. -/
def strictEqZero : JVal → Bool
  | .jnum n => n == 0
  | _ => false

/-- The test `v.length === 0` as it behaves on each dynamic shape: arrays and
strings report their length, other objects report a `length` field if they
have one (`undefined === 0` is false otherwise), and on primitives
`undefined === 0` is false. -/
def lengthEqZero : JVal → Bool
  | .jarr xs => xs.length == 0
  | .jstr s => s.length == 0
  | .jobj fs => strictEqZero (lookupField fs "length")
  | _ => false

/-- JavaScript `a || b` defaulting on dynamic values. -/
def jsOr (v d : JVal) : JVal := if truthy v then v else d

/-- The whitespace class recognised by the JavaScript string handling the
services rely on (`\s` in the step-prefix regexes, `String.prototype.trim`,
`parseInt` skipping): the ASCII whitespace characters. -/
def isJsSpace (c : Char) : Bool :=
  c == ' ' || c == '\t' || c == '\n' || c == '\r' || c == '\x0b' || c == '\x0c'

/-- Drop leading JavaScript whitespace. -/
def dropJsSpace (cs : List Char) : List Char := cs.dropWhile isJsSpace

/-- `String.prototype.trim` on character lists: drop whitespace at both ends. -/
def jsTrimL (cs : List Char) : List Char :=
  ((cs.dropWhile isJsSpace).reverse.dropWhile isJsSpace).reverse

/-- `String.prototype.trim`. -/
def jsTrimS (s : String) : String := String.mk (jsTrimL s.toList)

/-- Substring containment on character lists, the semantics of
`String.prototype.includes` for a non-empty needle. -/
def hasSubstrL (hay pat : List Char) : Bool :=
  match hay with
  | [] => pat.isEmpty
  | _ :: rest => pat.isPrefixOf hay || hasSubstrL rest pat

/-- `haystack.includes(needle)`. -/
def hasSubstr (hay pat : String) : Bool := hasSubstrL hay.toList pat.toList

/-- `String.prototype.toLowerCase` on the ASCII range used by the error
messages (emoji and punctuation are unaffected by case mapping). -/
def lowerStr (s : String) : String := String.mk (s.toList.map Char.toLower)

/-- The decimal digit character for a value below ten (the only values it is
applied to); written as an explicit table so that digit-hood is provable by
case analysis. -/
def digitChar : Nat → Char
  | 0 => '0' | 1 => '1' | 2 => '2' | 3 => '3' | 4 => '4'
  | 5 => '5' | 6 => '6' | 7 => '7' | 8 => '8' | _ => '9'

/-- Decimal digits of a natural number, most significant first, with explicit
fuel so the definition is structural and kernel-evaluable. -/
def natDecGo : Nat → Nat → List Char
  | 0, _ => []
  | fuel + 1, n =>
    if n < 10 then [digitChar n]
    else natDecGo fuel (n / 10) ++ [digitChar (n % 10)]

/-- Decimal digits of a natural number, the JavaScript rendering of a
non-negative integral number in a template string. -/
def natDec (n : Nat) : List Char := natDecGo (n + 1) n

/-- JavaScript rendering of an integral number as a string. -/
def intDec (n : Int) : String :=
  if n < 0 then String.mk ('-' :: natDec n.natAbs) else String.mk (natDec n.natAbs)

mutual

/-- `String(v)` coercion: `Array.prototype.toString` joins the elements with
commas, rendering `null`/`undefined` elements as empty strings. -/
def jsToString : JVal → String
  | .jnull => "null"
  | .jbool b => if b then "true" else "false"
  | .jnum n => intDec n
  | .jstr s => s
  | .jobj _ => "[object Object]"
  | .jarr xs => arrJoin xs

/-- `Array.prototype.join` with the default comma separator. -/
def arrJoin : List JVal → String
  | [] => ""
  | [.jnull] => ""
  | [v] => jsToString v
  | .jnull :: rest => "," ++ arrJoin rest
  | v :: rest => jsToString v ++ "," ++ arrJoin rest

end

/-- Numeric value of a decimal digit character. -/
def digitVal (c : Char) : Nat := c.toNat - 48

/-- Hexadecimal digit test. -/
def isHexDigitCh (c : Char) : Bool :=
  c.isDigit || ('a' ≤ c && c ≤ 'f') || ('A' ≤ c && c ≤ 'F')

/-- Numeric value of a hexadecimal digit character. -/
def hexVal (c : Char) : Nat :=
  if c.isDigit then c.toNat - 48
  else if 'a' ≤ c && c ≤ 'f' then c.toNat - 87
  else c.toNat - 55

/-- Fold digits into a number. -/
def digitsToNat (base : Nat) (val : Char → Nat) (ds : List Char) : Nat :=
  ds.foldl (fun acc c => acc * base + val c) 0

/-- `parseInt(s)` with no radix argument: skip leading whitespace, read an
optional sign, treat a `0x`/`0X` prefix as hexadecimal, otherwise read a
maximal run of decimal digits; `none` models the `NaN` result when no digit
is found. -/
def jsParseInt (s : String) : Option Int :=
  let cs := dropJsSpace s.toList
  let (neg, cs) :=
    match cs with
    | '-' :: rest => (true, rest)
    | '+' :: rest => (false, rest)
    | rest => (false, rest)
  let (base, val, isD, cs) :=
    match cs with
    | '0' :: 'x' :: rest => (16, hexVal, isHexDigitCh, rest)
    | '0' :: 'X' :: rest => (16, hexVal, isHexDigitCh, rest)
    | rest => (10, digitVal, Char.isDigit, rest)
  let digits := cs.takeWhile isD
  if digits.isEmpty then none
  else
    let n : Int := Int.ofNat (digitsToNat base val digits)
    some (if neg then -n else n)

/-- `AIService.validateCookTime`: parse the coerced value as an integer;
`NaN` or a value below one defaults to 30, and the result is capped at 480. -/
def validateCookTime (cookTime : JVal) : Int :=
  match jsParseInt (jsToString cookTime) with
  | none => 30
  | some time => if time < 1 then 30 else min time 480

/-- `AIService.validateServings`: parse the coerced value as an integer;
`NaN` or a value below one defaults to 4, and the result is capped at 20. -/
def validateServings (servings : JVal) : Int :=
  match jsParseInt (jsToString servings) with
  | none => 4
  | some count => if count < 1 then 4 else min count 20

/-- `AIService.validateDifficulty`: lower-case the coerced value and accept
only the three difficulty levels, defaulting to medium. -/
def validateDifficulty (difficulty : JVal) : String :=
  let normalized := lowerStr (jsToString difficulty)
  if normalized == "easy" || normalized == "medium" || normalized == "hard"
  then normalized else "medium"

/-- Case-insensitive character comparison, the effect of the `i` regex flag. -/
def ciEq (a b : Char) : Bool := a.toLower == b.toLower

/-- Consume a case-insensitive literal pattern from the front of a list. -/
def stripCI : List Char → List Char → Option (List Char)
  | [], cs => some cs
  | _ :: _, [] => none
  | p :: ps, c :: cs => if ciEq p c then stripCI ps cs else none

/-- Match the regex `^Step \d+:?\s*` (case-insensitive) at the front of a
list, returning the remainder after the match: the literal `Step `, one or
more decimal digits, an optional colon, then any whitespace. -/
def matchStepNum (cs : List Char) : Option (List Char) :=
  match stripCI ['s', 't', 'e', 'p', ' '] cs with
  | none => none
  | some rest =>
    if (rest.takeWhile Char.isDigit).isEmpty then none
    else
      let afterDigits := rest.dropWhile Char.isDigit
      let afterColon := match afterDigits with
        | ':' :: t => t
        | t => t
      some (dropJsSpace afterColon)

/-- The replace of the anchored regex `^Step \d+:?\s*` (flag `i`) with the
empty string: remove the first (hence only, as the regex is anchored) match,
or leave the list unchanged. -/
def stripStepPrefix (cs : List Char) : List Char :=
  match matchStepNum cs with
  | some rest => rest
  | none => cs

/-- The cleaned body of one instruction: the anchored step-prefix removal
followed by `trim()`. -/
def cleanInstruction (cs : List Char) : List Char := jsTrimL (stripStepPrefix cs)

/-- The canonical prefix `Step {n}: ` attached by the Formatter. -/
def stepPrefixChars (n : Nat) : List Char :=
  'S' :: 't' :: 'e' :: 'p' :: ' ' :: (natDec n ++ [':', ' '])

/-- Formatting of the instruction at position `index` (a string entry):
`` `Step ${index + 1}: ${cleanInstruction}` ``. -/
def fmtInstr (index : Nat) (s : String) : String :=
  String.mk (stepPrefixChars (index + 1) ++ cleanInstruction s.toList)

/-- The instruction-formatting pass of `AIService.formatRecipe` on a list of
string instructions, numbering from the given starting index. -/
def fmtInstrListFrom (index : Nat) : List String → List String
  | [] => []
  | s :: rest => fmtInstr index s :: fmtInstrListFrom (index + 1) rest

/-- The instruction-formatting pass of `AIService.formatRecipe`:
`instructions.map((instruction, index) => ...)`. -/
def fmtInstrList (instructions : List String) : List String :=
  fmtInstrListFrom 0 instructions

/-- How many times in a row a `Step N:` prefix can be stripped from the
front of a string: the number of stacked step prefixes it carries.  Each
strip consumes at least the five characters `Step` plus a digit, so the
length of the list is sufficient fuel. -/
def countStepPrefixesGo : Nat → List Char → Nat
  | 0, _ => 0
  | fuel + 1, cs =>
    match matchStepNum cs with
    | some rest => countStepPrefixesGo fuel rest + 1
    | none => 0

/-- Number of stacked `Step N:` prefixes at the front of a string. -/
def countStepPrefixes (s : String) : Nat :=
  countStepPrefixesGo s.toList.length s.toList

/-- Schema and type failures of the Formatter.  The first three model the
distinct user-presentable validation errors thrown by
`AIService.formatRecipe`; `typeError` models a JavaScript `TypeError`
escaping from the formatting code (for example `.map` called on a value that
is not an array). -/
inductive FmtError where
  | missingTitle : FmtError
  | missingIngredients : FmtError
  | missingInstructions : FmtError
  | typeError : FmtError
deriving Repr, DecidableEq

/-- One formatted ingredient record, `{name, quantity, unit}`.  The fields
stay dynamic because the `||` defaulting of `ing.name` keeps whatever
truthy value the provider supplied, string or not. -/
structure FmtIngredient where
  name : JVal
  quantity : JVal
  unit : JVal
deriving Repr

/-- The canonical Recipe constructed by `AIService.formatRecipe`, without the
nondeterministic presentation fields `id`, `image` and `createdAt` (built
from `Date.now()`, `Math.random()` and a stock-photo URL table; no claim
mentions them). -/
structure Recipe where
  title : String
  description : JVal
  cookTime : Int
  difficulty : String
  servings : Int
  ingredients : List FmtIngredient
  instructions : List String
  dietaryTags : List JVal
deriving Repr

/-- Formatting of one ingredient entry: strings are promoted to records,
records have their fields defaulted, `null`/`undefined` entries throw a
`TypeError` on property access, and any other primitive or array yields
`undefined` for each property so every field defaults. -/
def formatIngredient : JVal → Except FmtError FmtIngredient
  | .jstr s => .ok ⟨.jstr s, .jstr "1", .jstr "piece"⟩
  | .jnull => .error .typeError
  | .jobj fs =>
    .ok ⟨jsOr (lookupField fs "name") (.jstr "Unknown ingredient"),
         jsOr (lookupField fs "quantity") (.jstr "1"),
         jsOr (lookupField fs "unit") (.jstr "piece")⟩
  | _ => .ok ⟨.jstr "Unknown ingredient", .jstr "1", .jstr "piece"⟩

/-- Formatting of one instruction entry at position `index`: only strings
have the `.replace` method, every other entry throws a `TypeError`. -/
def formatInstruction (index : Nat) : JVal → Except FmtError String
  | .jstr s => .ok (fmtInstr index s)
  | _ => .error .typeError

/-- `Array.prototype.map` with a fallible body: entries are processed left to
right and the first thrown error aborts the traversal. -/
def mapExcept (f : α → Except FmtError β) : List α → Except FmtError (List β)
  | [] => .ok []
  | x :: xs =>
    match f x with
    | .error e => .error e
    | .ok y =>
      match mapExcept f xs with
      | .error e => .error e
      | .ok ys => .ok (y :: ys)

/-- The indexed fallible map over instruction entries. -/
def formatInstructionsFrom (index : Nat) : List JVal → Except FmtError (List String)
  | [] => .ok []
  | v :: vs =>
    match formatInstruction index v with
    | .error e => .error e
    | .ok s =>
      match formatInstructionsFrom (index + 1) vs with
      | .error e => .error e
      | .ok rest => .ok (s :: rest)

/-- `AIService.formatRecipe`: validate presence of a truthy title, a truthy
non-empty ingredients value and a truthy non-empty instructions value, then
format the ingredient and instruction entries element-wise (in source order:
the ingredient map runs first, then the instruction map, then `title.trim()`
inside the returned object literal) and assemble the canonical Recipe with
defaulted description, clamped numeric fields and defaulted dietary tags. -/
def formatRecipe (recipeData : JVal) : Except FmtError Recipe :=
  if !truthy (jvGet recipeData "title") then .error .missingTitle
  else if !truthy (jvGet recipeData "ingredients")
          || lengthEqZero (jvGet recipeData "ingredients") then
    .error .missingIngredients
  else if !truthy (jvGet recipeData "instructions")
          || lengthEqZero (jvGet recipeData "instructions") then
    .error .missingInstructions
  else
    match jvGet recipeData "ingredients" with
    | .jarr ingEntries =>
      match mapExcept formatIngredient ingEntries with
      | .error e => .error e
      | .ok formattedIngredients =>
        match jvGet recipeData "instructions" with
        | .jarr insEntries =>
          match formatInstructionsFrom 0 insEntries with
          | .error e => .error e
          | .ok formattedInstructions =>
            match jvGet recipeData "title" with
            | .jstr t =>
              .ok { title := jsTrimS t
                    description := jsOr (jvGet recipeData "description")
                      (.jstr "A delicious ChatGPT-generated recipe perfect for your kitchen.")
                    cookTime := validateCookTime (jvGet recipeData "cookTime")
                    difficulty := validateDifficulty (jvGet recipeData "difficulty")
                    servings := validateServings (jvGet recipeData "servings")
                    ingredients := formattedIngredients
                    instructions := formattedInstructions
                    dietaryTags :=
                      match jvGet recipeData "dietaryTags" with
                      | .jarr tags => tags
                      | _ => [.jstr "general"] }
            | _ => .error .typeError
        | _ => .error .typeError
    | _ => .error .typeError

/-- The backtick character of the markdown fence markers, spelled by code
point. -/
def backtickChar : Char := Char.ofNat 96

/-- The opening brace character, spelled by code point. -/
def openBrace : Char := Char.ofNat 123

/-- The closing brace character, spelled by code point. -/
def closeBrace : Char := Char.ofNat 125

/-- Whitespace accepted between JSON tokens. -/
def isJsonWs (c : Char) : Bool :=
  c == ' ' || c == '\t' || c == '\n' || c == '\r'

/-- Skip JSON whitespace. -/
def skipJsonWs (cs : List Char) : List Char := cs.dropWhile isJsonWs

/-- Decode the body of a JSON string after the opening quote, returning the
decoded characters and the input after the closing quote.  The standard
escapes and `\uXXXX` are handled (lone surrogates and raw control characters
are accepted leniently; neither occurs in the inputs the claims exercise). -/
def parseStrBody : List Char → Option (List Char × List Char)
  | [] => none
  | '"' :: rest => some ([], rest)
  | '\\' :: e :: rest =>
    if e == 'u' then
      match rest with
      | h1 :: h2 :: h3 :: h4 :: rest2 =>
        if isHexDigitCh h1 && isHexDigitCh h2 && isHexDigitCh h3 && isHexDigitCh h4 then
          match parseStrBody rest2 with
          | some (body, rem) =>
            some (Char.ofNat (((hexVal h1 * 16 + hexVal h2) * 16 + hexVal h3) * 16 + hexVal h4) :: body, rem)
          | none => none
        else none
      | _ => none
    else
      match
        (if e == '"' then some '"'
         else if e == '\\' then some '\\'
         else if e == '/' then some '/'
         else if e == 'n' then some '\n'
         else if e == 't' then some '\t'
         else if e == 'r' then some '\r'
         else if e == 'b' then some (Char.ofNat 8)
         else if e == 'f' then some (Char.ofNat 12)
         else none) with
      | some d =>
        match parseStrBody rest with
        | some (body, rem) => some (d :: body, rem)
        | none => none
      | none => none
  | c :: rest =>
    match parseStrBody rest with
    | some (body, rem) => some (c :: body, rem)
    | none => none

/-- Parse a JSON integral number after an optional minus sign.  Fractional
and exponent forms are outside the modelled fragment (no claim feeds them
through `JSON.parse`) and make the parse fail instead of producing a float. -/
def parseJsonNum (cs : List Char) : Option (Int × List Char) :=
  let (neg, cs2) := match cs with
    | '-' :: rest => (true, rest)
    | rest => (false, rest)
  let digits := cs2.takeWhile Char.isDigit
  if digits.isEmpty then none
  else
    let rest := cs2.dropWhile Char.isDigit
    match rest with
    | '.' :: _ => none
    | 'e' :: _ => none
    | 'E' :: _ => none
    | _ =>
      let n : Int := Int.ofNat (digitsToNat 10 digitVal digits)
      some (if neg then -n else n, rest)

mutual

/-- Parse one JSON value; fuel makes the mutual recursion structural. -/
def parseJsonVal : Nat → List Char → Option (JVal × List Char)
  | 0, _ => none
  | fuel + 1, input =>
    match skipJsonWs input with
    | 'n' :: 'u' :: 'l' :: 'l' :: rest => some (.jnull, rest)
    | 't' :: 'r' :: 'u' :: 'e' :: rest => some (.jbool true, rest)
    | 'f' :: 'a' :: 'l' :: 's' :: 'e' :: rest => some (.jbool false, rest)
    | '"' :: rest =>
      match parseStrBody rest with
      | some (body, rem) => some (.jstr (String.mk body), rem)
      | none => none
    | c :: rest =>
      if c == '[' then
        match skipJsonWs rest with
        | c2 :: rest2 =>
          if c2 == ']' then some (.jarr [], rest2)
          else parseJsonArrItems fuel (c2 :: rest2) []
        | [] => none
      else if c == openBrace then
        match skipJsonWs rest with
        | c2 :: rest2 =>
          if c2 == closeBrace then some (.jobj [], rest2)
          else parseJsonObjItems fuel (c2 :: rest2) []
        | [] => none
      else
        match parseJsonNum (c :: rest) with
        | some (n, rem) => some (.jnum n, rem)
        | none => none
    | [] => none

/-- Parse the remaining comma-separated items of a JSON array, accumulating
in reverse. -/
def parseJsonArrItems : Nat → List Char → List JVal → Option (JVal × List Char)
  | 0, _, _ => none
  | fuel + 1, input, acc =>
    match parseJsonVal fuel input with
    | none => none
    | some (v, rest) =>
      match skipJsonWs rest with
      | ',' :: rest2 => parseJsonArrItems fuel rest2 (v :: acc)
      | c :: rest2 =>
        if c == ']' then some (.jarr (v :: acc).reverse, rest2) else none
      | [] => none

/-- Parse the remaining comma-separated `"key": value` fields of a JSON
object, accumulating in reverse. -/
def parseJsonObjItems : Nat → List Char → List (String × JVal) → Option (JVal × List Char)
  | 0, _, _ => none
  | fuel + 1, input, acc =>
    match skipJsonWs input with
    | '"' :: rest =>
      match parseStrBody rest with
      | none => none
      | some (key, rest2) =>
        match skipJsonWs rest2 with
        | ':' :: rest3 =>
          match parseJsonVal fuel rest3 with
          | none => none
          | some (v, rest4) =>
            match skipJsonWs rest4 with
            | ',' :: rest5 => parseJsonObjItems fuel rest5 ((String.mk key, v) :: acc)
            | c :: rest5 =>
              if c == closeBrace then some (.jobj ((String.mk key, v) :: acc).reverse, rest5)
              else none
            | [] => none
        | _ => none
    | _ => none

end

/-- `JSON.parse` on the modelled fragment: the whole input must be one JSON
value with only whitespace around it. -/
def jsonParse (cs : List Char) : Option JVal :=
  match parseJsonVal (2 * cs.length + 4) cs with
  | some (v, rest) => if (skipJsonWs rest).isEmpty then some v else none
  | none => none

/-- Global replacement with the empty string of the marker `m :: ms`
followed by `\s*`, scanning left to right without overlap — the behaviour of
the global replace of the regex `marker\s*` with the empty string, for a
literal marker.  Fuel equal to the
length of the scanned list is sufficient: every step consumes at least one
character. -/
def replaceMarkerGo (m : Char) (ms : List Char) : Nat → List Char → List Char
  | _, [] => []
  | 0, cs => cs
  | fuel + 1, c :: rest =>
    if (m :: ms).isPrefixOf (c :: rest) then
      replaceMarkerGo m ms fuel (dropJsSpace (rest.drop ms.length))
    else c :: replaceMarkerGo m ms fuel rest

/-- Global removal of a literal marker and its trailing whitespace. -/
def replaceMarker (marker : List Char) (cs : List Char) : List Char :=
  match marker with
  | [] => cs
  | m :: ms => replaceMarkerGo m ms cs.length cs

/-- The `` ```json `` fence marker. -/
def fenceJsonMarker : List Char := backtickChar :: backtickChar :: backtickChar :: ['j', 's', 'o', 'n']

/-- The bare `` ``` `` fence marker. -/
def fenceMarker : List Char := backtickChar :: backtickChar :: [backtickChar]

/-- The global replace of the anchored regex `^json\s*` with the empty
string on the cleaned response: with an anchored pattern and
no multiline flag the global replace can only remove one leading `json`
token together with the whitespace that follows it. -/
def stripLeadingJsonToken (cs : List Char) : List Char :=
  if ['j', 's', 'o', 'n'].isPrefixOf cs then dropJsSpace (cs.drop 4) else cs

/-- The cleaning pipeline of `OpenAIService.generateRecipe`: trim, remove
`` ```json `` fences, remove bare `` ``` `` fences, remove a leading bare
`json` token. -/
def cleanResponse (cs : List Char) : List Char :=
  stripLeadingJsonToken (replaceMarker fenceMarker (replaceMarker fenceJsonMarker (jsTrimL cs)))

/-- `String.prototype.indexOf` for a single character. -/
def idxOfChar (c : Char) : List Char → Option Nat
  | [] => none
  | x :: rest => if x == c then some 0 else (idxOfChar c rest).map (· + 1)

/-- `String.prototype.lastIndexOf` for a single character. -/
def lastIdxOfChar (c : Char) (cs : List Char) : Option Nat :=
  (idxOfChar c cs.reverse).map (fun i => cs.length - 1 - i)

/-- Start of the leftmost match of the greedy regex `\{[\s\S]*\}`: the first
opening brace that still has a closing brace somewhere after it. -/
def findStartBrace : List Char → Option Nat
  | [] => none
  | x :: rest =>
    if x == openBrace && rest.contains closeBrace then some 0
    else (findStartBrace rest).map (· + 1)

/-- `String.prototype.substring`: both indices are clamped to the string
length and swapped when given in descending order. -/
def jsSubstringL (cs : List Char) (a b : Nat) : List Char :=
  let len := cs.length
  let lo := min (min a len) (min b len)
  let hi := max (min a len) (min b len)
  (cs.drop lo).take (hi - lo)

/-- The JSON-span extraction of `OpenAIService.generateRecipe`: prefer the
greedy regex match `\{[\s\S]*\}` (first opening brace having a later closing
brace, through the last closing brace of the whole text); otherwise slice
between `indexOf('{')` and `lastIndexOf('}')`; `none` when no boundary
exists. -/
def extractCandidate (cs : List Char) : Option (List Char) :=
  match findStartBrace cs with
  | some i =>
    match lastIdxOfChar closeBrace cs with
    | some j => some (jsSubstringL cs i (j + 1))
    | none => none
  | none =>
    match idxOfChar openBrace cs, lastIdxOfChar closeBrace cs with
    | some firstBrace, some lastBrace => some (jsSubstringL cs firstBrace (lastBrace + 1))
    | _, _ => none

/-- The Response Normalizer of `OpenAIService.generateRecipe`: clean the raw
reply, locate a JSON span, and parse it.  A missing boundary yields the
invalid-format error; a parse failure yields the response-format error. -/
def extractRecipeJson (response : String) : Except String JVal :=
  match extractCandidate (cleanResponse response.toList) with
  | none => .error "🔧 Invalid response format from ChatGPT. Please try again."
  | some candidate =>
    match jsonParse candidate with
    | some v => .ok v
    | none => .error "🔧 ChatGPT response format error. Please try generating again."

/-- `OpenAIService.validateRecipeStructure`: the four required fields must
be truthy and the ingredient and instruction values must be non-empty
arrays. -/
def validateRecipeStructure (recipe : JVal) : Bool :=
  truthy (jvGet recipe "title") && truthy (jvGet recipe "description")
    && truthy (jvGet recipe "ingredients") && truthy (jvGet recipe "instructions")
    && (match jvGet recipe "ingredients" with
        | .jarr xs => decide (0 < xs.length)
        | _ => false)
    && (match jvGet recipe "instructions" with
        | .jarr xs => decide (0 < xs.length)
        | _ => false)

/-- JavaScript `||` defaulting on an optional string (the empty string is
falsy). -/
def jsOrStr (o : Option String) (d : String) : String :=
  match o with
  | some m => if m == "" then d else m
  | none => d

/-- `OpenAIService.getErrorMessage`: map an HTTP status to a user-facing
message. -/
def getErrorMessage (status : Nat) (message : Option String) : String :=
  if status == 401 then "🔐 Invalid ChatGPT API key. Please check your VITE_OPENAI_API_KEY."
  else if status == 429 then "⏳ ChatGPT rate limit reached. Please wait a moment and try again."
  else if status == 500 || status == 502 || status == 503 then
    "🔧 ChatGPT service temporarily unavailable. Try again in a few minutes."
  else "🤖 ChatGPT Error: " ++ jsOrStr message "Unknown error occurred"

/-- Outcome of the `fetch` round trip made by `OpenAIService.makeRequest`,
abstracted as an oracle: a 2xx response carries the optional content of
`choices[0]?.message.content`, a non-2xx response carries the status and the
optional `error.message` of its body, and a transport failure carries the
thrown error message. -/
inductive HttpResult where
  | success : Option String → HttpResult
  | httpError : Nat → Option String → HttpResult
  | fetchFailure : String → HttpResult

/-- `OpenAIService.makeRequest`: reject when the API key is not configured,
map non-2xx statuses through `getErrorMessage`, reject empty or missing
content, and pass transport errors through unchanged (they are `Error`
instances, so the catch block rethrows them as-is). -/
def makeRequest (configured : Bool) (http : HttpResult) : Except String String :=
  if !configured then
    .error "🔑 ChatGPT API key not configured. Please add VITE_OPENAI_API_KEY to your .env file."
  else
    match http with
    | .httpError status msg => .error (getErrorMessage status msg)
    | .fetchFailure msg => .error msg
    | .success none => .error "🤖 ChatGPT returned empty response. Please try again."
    | .success (some content) =>
      if content == "" then .error "🤖 ChatGPT returned empty response. Please try again."
      else .ok content

/-- The replacement character U+FFFD, the literal character argument of the
`includes` pass-through test in the catch block of
`OpenAIService.generateRecipe` (the bytes EF BF BD in the source file). -/
def replacementCharStr : String := "�"

/-- The outer catch of `OpenAIService.generateRecipe`: a message is passed
through only when it contains U+FFFD; every other error is replaced by the
generic failure message.  (None of the emoji-tagged messages produced
anywhere in the service contain U+FFFD, so in practice nothing passes.) -/
def rewrapOpenAIError (emsg : String) : String :=
  if hasSubstr emsg replacementCharStr then emsg
  else "🍳 Failed to generate recipe. Please check your internet connection and try again."

/-- `OpenAIService.generateRecipe`: reject empty ingredient lists before the
try block (that error propagates unwrapped); inside the try block run the
request, the empty-response check, the Normalizer and the structure
validation, and wrap any thrown message through `rewrapOpenAIError`.  The
`📝 Incomplete recipe generated` throw of the validation branch happens
inside the inner `try \x7b JSON.parse ... \x7d catch (parseError)` block, so
it is caught there and re-labelled as the response-format error before the
outer wrap. -/
def openaiGenerateRecipe (ingredients : List String) (configured : Bool)
    (http : HttpResult) : Except String JVal :=
  if ingredients.isEmpty then
    .error "🥕 Please add some ingredients to generate a recipe!"
  else
    let attempt : Except String JVal :=
      match makeRequest configured http with
      | .error e => .error e
      | .ok response =>
        if (jsTrimL response.toList).isEmpty then
          .error "🤖 ChatGPT returned empty response. Please try again."
        else
          match extractRecipeJson response with
          | .error e => .error e
          | .ok recipe =>
            if validateRecipeStructure recipe then .ok recipe
            else .error "🔧 ChatGPT response format error. Please try generating again."
    match attempt with
    | .ok r => .ok r
    | .error e => .error (rewrapOpenAIError e)

/-- The keyword reclassification in the catch block of
`AIService.generateRecipe`: inspect the lower-cased message for keyword
patterns in source order and replace it with the corresponding user-facing
message; an unmatched message is wrapped with its original text preserved. -/
def aiReclassifyError (emsg : String) : String :=
  let msg := lowerStr emsg
  if hasSubstr emsg "API key not configured" || hasSubstr msg "not configured" then
    "🔑 ChatGPT API not configured. Please add your OpenAI API key to the .env file."
  else if hasSubstr msg "429" || hasSubstr msg "rate limit" then
    "⏳ Too many requests to ChatGPT. Please wait 30 seconds and try again."
  else if hasSubstr msg "401" || hasSubstr msg "unauthorized"
          || (hasSubstr msg "invalid" && hasSubstr msg "key") then
    "🔐 Invalid ChatGPT API key. Please check your VITE_OPENAI_API_KEY in .env file."
  else if hasSubstr msg "network" || hasSubstr msg "fetch" || hasSubstr msg "cors"
          || hasSubstr msg "blocked" then
    "🌐 Connection error. Please check your internet and try again."
  else if hasSubstr msg "empty" || hasSubstr msg "incomplete" then
    "🤖 ChatGPT returned incomplete response. Please try again."
  else "Recipe generation failed: " ++ emsg

/-- The message carried by a Formatter failure when it reaches the catch
block of `AIService.generateRecipe`: the three validation errors carry their
thrown text; an escaping `TypeError` carries a runtime-engine text of the
shape `x.map is not a function` (its exact wording is irrelevant to every
claim — it matches none of the reclassification keywords). -/
def fmtErrorMessage : FmtError → String
  | .missingTitle => "📝 Recipe missing title - please try generating again."
  | .missingIngredients => "🥕 Recipe missing ingredients - please try generating again."
  | .missingInstructions => "📋 Recipe missing instructions - please try generating again."
  | .typeError => "TypeError: x.map is not a function"

/-- An ingredient handed to `AIService.generateRecipe` by the UI; only its
name is read. -/
structure IngredientIn where
  name : String

/-- The options object of `AIService.generateRecipe`.  Its fields only shape
the prompt text sent to the provider, whose reply is already abstracted by
the `HttpResult` oracle, so no embedded computation reads them. -/
structure GenOptions where
  dietaryRestrictions : List String := []
  maxTime : Option Int := none
  difficulty : Option String := none
  servings : Option Int := none

/-- Result of one `AIService.generateRecipe` call together with which
outbound clients were invoked.  The text-generation client is called exactly
when the empty-ingredient guard passes; `AIService.generateRecipe` contains
no image-generation call at all (image work lives in other methods), so that
flag is false on every path of this function. -/
structure AIGenResult where
  outcome : Except String Recipe
  openaiCalled : Bool
  imageCalled : Bool
deriving Repr

/-- `AIService.generateRecipe`: map ingredients to their names, reject an
empty list before any client call, then run the provider call, the
incomplete-recipe guard and the Formatter, reclassifying every thrown
message through `aiReclassifyError`. -/
def aiServiceGenerateRecipe (ingredients : List IngredientIn) (opts : GenOptions)
    (configured : Bool) (http : HttpResult) : AIGenResult :=
  let ingredientNames := ingredients.map IngredientIn.name
  if ingredientNames.length == 0 then
    { outcome := .error "Please add some ingredients to generate a recipe."
      openaiCalled := false
      imageCalled := false }
  else
    let attempt : Except String Recipe :=
      match openaiGenerateRecipe ingredientNames configured http with
      | .error e => .error e
      | .ok openaiRecipe =>
        if !(truthy openaiRecipe && truthy (jvGet openaiRecipe "title")) then
          .error "🤖 ChatGPT generated an incomplete recipe. Please try again."
        else
          match formatRecipe openaiRecipe with
          | .ok formatted => .ok formatted
          | .error fe => .error (fmtErrorMessage fe)
    match attempt with
    | .ok recipe => { outcome := .ok recipe, openaiCalled := true, imageCalled := false }
    | .error e =>
      { outcome := .error (aiReclassifyError e), openaiCalled := true, imageCalled := false }

/-- The kind of rejection seen between `JSON.parse` and the canonical
Recipe: a schema/formatting rejection (structure validation or one of the
three Formatter validation errors) or an escaping `TypeError`. -/
inductive RejectKind where
  | schemaError : RejectKind
  | typeError : RejectKind
deriving Repr, DecidableEq

/-- The promotion pipeline from a parsed provider value to a canonical
Recipe, composing the stages the source runs in order:
`OpenAIService.validateRecipeStructure` (whose failure is thrown and
re-labelled as a formatting error), the incomplete-recipe guard of
`AIService.generateRecipe`, and `AIService.formatRecipe`.  Message plumbing
is abstracted into the rejection kind. -/
def promoteParsedRecipe (recipe : JVal) : Except RejectKind Recipe :=
  if !validateRecipeStructure recipe then .error .schemaError
  else if !(truthy recipe && truthy (jvGet recipe "title")) then .error .schemaError
  else
    match formatRecipe recipe with
    | .ok rec => .ok rec
    | .error .typeError => .error .typeError
    | .error _ => .error .schemaError

/-- Outcome of an asynchronous JavaScript computation: a settled value or a
thrown/rejected error.  Used to model test doubles that are made to throw. -/
inductive JsOutcome (α : Type) where
  | ok : α → JsOutcome α
  | thrown : JsOutcome α
deriving Repr, DecidableEq

/-- `OpenAIService.generateSimpleTips`: the hardcoded fallback tips object,
built from the first ingredient name.  `ingredients[0]` on an empty array is
`undefined`, rendered as the text `undefined` inside the template string and
replaced by `main ingredient` by the `||` default in the pairing entry. -/
def generateSimpleTips (ingredients : List String) : JVal :=
  let firstTemplate := match ingredients with
    | [] => "undefined"
    | x :: _ => x
  let firstOr := match ingredients with
    | [] => "main ingredient"
    | x :: _ => if x == "" then "main ingredient" else x
  .jobj
    [("generalTips", .jarr
        [.jobj
           [("title", .jstr "Fresh Ingredients"),
            ("content", .jstr ("Use fresh " ++ firstTemplate ++ " for the best flavor and texture in your dish.")),
            ("difficulty", .jstr "beginner"),
            ("category", .jstr "preparation"),
            ("importance", .jstr "high"),
            ("estimatedTime", .jstr "1 minute")],
         .jobj
           [("title", .jstr "Proper Seasoning"),
            ("content", .jstr "Season your ingredients at the right time for maximum flavor absorption."),
            ("difficulty", .jstr "beginner"),
            ("category", .jstr "flavor"),
            ("importance", .jstr "high"),
            ("estimatedTime", .jstr "2 minutes")]]),
     ("proTips", .jarr
        [.jobj
           [("title", .jstr "Temperature Control"),
            ("content", .jstr "Master your cooking temperature for professional results."),
            ("difficulty", .jstr "intermediate"),
            ("category", .jstr "technique"),
            ("chefSecret", .jbool true)]]),
     ("commonMistakes", .jarr
        [.jobj
           [("mistake", .jstr "Overcooking ingredients"),
            ("solution", .jstr "Monitor cooking time closely"),
            ("prevention", .jstr "Use a timer and check frequently")]]),
     ("flavorPairings", .jarr
        [.jobj
           [("ingredient", .jstr firstOr),
            ("pairs", .jarr [.jstr "herbs", .jstr "spices"]),
            ("why", .jstr "These combinations enhance the natural flavors")]])]

/-- `OpenAIService.generateCookingTips` with its two stages abstracted as
outcomes: when the rich path (request plus `JSON.parse`) settles it is
returned; when it throws, whatever `generateSimpleTips` produces (the second
argument — in the real program always `ok (generateSimpleTips ingredients)`,
in the stubbed scenario possibly `thrown`) is the result of the call. -/
def generateCookingTipsWith (rich simple : JsOutcome JVal) : JsOutcome JVal :=
  match rich with
  | .ok tips => .ok tips
  | .thrown => simple

/-- The outcome of the rich path of `OpenAIService.generateCookingTips`:
the request followed by `JSON.parse` of the raw reply; a request error or an
unparsable reply both fall to the simple-tips fallback. -/
def richTipsOutcome (configured : Bool) (http : HttpResult) : JsOutcome JVal :=
  match makeRequest configured http with
  | .error _ => .thrown
  | .ok response =>
    match jsonParse response.toList with
    | some tips => .ok tips
    | none => .thrown

/-- The object returned by `AIService.getRecipeEnhancements`: the
`cookingTips` value, and the `customImage` field which is only set when the
image outcome is truthy. -/
structure Enhancements where
  cookingTips : JVal
  customImage : Option JVal
deriving Repr

/-- `AIService.getRecipeEnhancements`: both inner promises carry their own
`.catch` handler (tips fall back to the empty array, the image to `null`),
and the surrounding try/catch returns the accumulated object on every path,
so the function never rejects. -/
def getRecipeEnhancements (tips image : JsOutcome JVal) : Enhancements :=
  let cookingTips : JVal := match tips with
    | .ok t => t
    | .thrown => .jarr []
  let customImage : JVal := match image with
    | .ok u => u
    | .thrown => .jnull
  { cookingTips := cookingTips
    customImage := if truthy customImage then some customImage else none }

/-- A tips category is populated when it is a non-empty array. -/
def nonEmptyArrField (tips : JVal) (category : String) : Bool :=
  match jvGet tips category with
  | .jarr xs => decide (0 < xs.length)
  | _ => false

/-- The four categories hardcoded by `generateSimpleTips`, all populated. -/
def minimalCategoriesPopulated (tips : JVal) : Bool :=
  nonEmptyArrField tips "generalTips" && nonEmptyArrField tips "proTips"
    && nonEmptyArrField tips "commonMistakes" && nonEmptyArrField tips "flavorPairings"

/-- A title value is a string. -/
def isStringVal : JVal → Bool
  | .jstr _ => true
  | _ => false

/-- An ingredient entry survives property access (anything but
`null`/`undefined`). -/
def ingEntryOk : JVal → Bool
  | .jnull => false
  | _ => true

/-- The parsed values on which the Formatter maps succeed entry-wise: a
string title, no `null`/`undefined` ingredient entries, string instruction
entries. -/
def wellTypedEntries (r : JVal) : Bool :=
  isStringVal (jvGet r "title")
    && (match jvGet r "ingredients" with
        | .jarr xs => xs.all ingEntryOk
        | _ => false)
    && (match jvGet r "instructions" with
        | .jarr xs => xs.all isStringVal
        | _ => false)

/-! ## Auxiliary lemmas -/

theorem dropWhile_head_false {p : Char → Bool} {l : List Char} {c : Char} {cs : List Char}
    (h : l.dropWhile p = c :: cs) : p c = false := by
  have hw : l.dropWhile p ≠ [] := by simp [h]
  have := List.head_dropWhile_not p l hw
  simpa [h] using this

theorem dropWhile_idem {p : Char → Bool} (l : List Char) :
    (l.dropWhile p).dropWhile p = l.dropWhile p := by
  cases h : l.dropWhile p with
  | nil => simp
  | cons c cs =>
    have hc : p c = false := dropWhile_head_false h
    exact List.dropWhile_cons_of_neg (by simp [hc])

theorem jsTrimL_isPrefix (l : List Char) :
    jsTrimL l <+: l.dropWhile isJsSpace := by
  have h := List.dropWhile_suffix (l := (l.dropWhile isJsSpace).reverse) isJsSpace
  have h2 := List.reverse_prefix.mpr h
  simpa [jsTrimL] using h2

theorem jsTrimL_no_leading (l : List Char) :
    dropJsSpace (jsTrimL l) = jsTrimL l := by
  unfold dropJsSpace
  cases h : jsTrimL l with
  | nil => rfl
  | cons c cs =>
    have hpre := jsTrimL_isPrefix l
    rw [h] at hpre
    obtain ⟨t, ht⟩ := hpre
    have hhead : l.dropWhile isJsSpace = c :: (cs ++ t) := by simpa using ht.symm
    have hc : isJsSpace c = false := dropWhile_head_false hhead
    exact List.dropWhile_cons_of_neg (by simp [hc])

theorem jsTrimL_idem (l : List Char) : jsTrimL (jsTrimL l) = jsTrimL l := by
  have h1 : (jsTrimL l).dropWhile isJsSpace = jsTrimL l := jsTrimL_no_leading l
  show ((((jsTrimL l).dropWhile isJsSpace).reverse).dropWhile isJsSpace).reverse = jsTrimL l
  rw [h1]
  unfold jsTrimL
  simp [dropWhile_idem]

theorem digitChar_isDigit (k : Nat) : (digitChar k).isDigit = true := by
  unfold digitChar
  split <;> decide

theorem natDecGo_all_digits :
    ∀ (fuel n : Nat), ∀ c ∈ natDecGo fuel n, c.isDigit = true := by
  intro fuel
  induction fuel with
  | zero => intro n c hc; simp [natDecGo] at hc
  | succ f ih =>
    intro n c hc
    unfold natDecGo at hc
    by_cases hn : n < 10
    · simp [hn] at hc
      simp [hc, digitChar_isDigit]
    · simp [hn] at hc
      rcases hc with hc | hc
      · exact ih _ c hc
      · simp [hc, digitChar_isDigit]

theorem natDec_all_digits (n : Nat) : ∀ c ∈ natDec n, c.isDigit = true :=
  natDecGo_all_digits (n + 1) n

theorem natDecGo_ne_nil (fuel n : Nat) : natDecGo (fuel + 1) n ≠ [] := by
  unfold natDecGo
  by_cases hn : n < 10 <;> simp [hn]

theorem natDec_ne_nil (n : Nat) : natDec n ≠ [] := natDecGo_ne_nil n n

/-! ## Claim theorems -/

/-- C1: when the provider HTTP call returns status 429 (service configured,
non-empty ingredient list), `generateRecipe` does NOT reject with a
rate-limiting message: the provider layer produces the rate-limit wording,
but the catch block of `OpenAIService.generateRecipe` only passes through
messages containing U+FFFD (a mojibake replacement character where an emoji
check was intended), so the message is replaced by the generic failure text
before the 429/rate-limit reclassifier of `AIService.generateRecipe` can see
it.  The surfaced message contains neither `rate limit` nor `429`, while the
swallowed provider-level message did contain the keyword. -/
theorem rate_limit_message_lost_on_429 :
    (aiServiceGenerateRecipe [⟨"tomato"⟩] {} true (.httpError 429 none)).outcome
      = .error "Recipe generation failed: 🍳 Failed to generate recipe. Please check your internet connection and try again."
    ∧ hasSubstr (lowerStr "Recipe generation failed: 🍳 Failed to generate recipe. Please check your internet connection and try again.") "rate limit" = false
    ∧ hasSubstr (lowerStr "Recipe generation failed: 🍳 Failed to generate recipe. Please check your internet connection and try again.") "429" = false
    ∧ hasSubstr (lowerStr (getErrorMessage 429 none)) "rate limit" = true := by
  refine ⟨rfl, by decide, by decide, by decide⟩

/-- C4: with an empty ingredient list, `AIService.generateRecipe` rejects
immediately with the user-facing add-ingredients message, for every options
object and whatever the provider oracle would have answered, and neither the
text-generation client nor any image-generation client is invoked
(`AIService.generateRecipe` contains no image-generation call on any path). -/
theorem empty_ingredients_reject_no_client_call
    (opts : GenOptions) (configured : Bool) (http : HttpResult) :
    aiServiceGenerateRecipe [] opts configured http
      = { outcome := .error "Please add some ingredients to generate a recipe."
          openaiCalled := false
          imageCalled := false } := rfl

/-- C5: the validated cook time is always in [1, 480], with `NaN` results of
the parse and parsed values below one mapped to 30; the validated serving
count is always in [1, 20], with `NaN` and values below one mapped to 4.
Integrality is inherent: both validators return integers by construction,
matching `parseInt` and `Math.min` on integral inputs. -/
theorem cook_time_servings_clamped (v w : JVal) :
    (1 ≤ validateCookTime v ∧ validateCookTime v ≤ 480)
    ∧ (jsParseInt (jsToString v) = none → validateCookTime v = 30)
    ∧ (∀ t : Int, jsParseInt (jsToString v) = some t → t < 1 → validateCookTime v = 30)
    ∧ (1 ≤ validateServings w ∧ validateServings w ≤ 20)
    ∧ (jsParseInt (jsToString w) = none → validateServings w = 4)
    ∧ (∀ t : Int, jsParseInt (jsToString w) = some t → t < 1 → validateServings w = 4) := by
  refine ⟨?_, ?_, ?_, ?_, ?_, ?_⟩
  · unfold validateCookTime
    cases hp : jsParseInt (jsToString v) with
    | none => exact ⟨by norm_num, by norm_num⟩
    | some t =>
      by_cases ht : t < 1
      · simp [ht]
      · simp only [ht, if_false]
        push_neg at ht
        exact ⟨le_min ht (by norm_num), min_le_right _ _⟩
  · intro hp; unfold validateCookTime; rw [hp]
  · intro t hp ht; unfold validateCookTime; rw [hp]; simp [ht]
  · unfold validateServings
    cases hp : jsParseInt (jsToString w) with
    | none => exact ⟨by norm_num, by norm_num⟩
    | some t =>
      by_cases ht : t < 1
      · simp [ht]
      · simp only [ht, if_false]
        push_neg at ht
        exact ⟨le_min ht (by norm_num), min_le_right _ _⟩
  · intro hp; unfold validateServings; rw [hp]
  · intro t hp ht; unfold validateServings; rw [hp]; simp [ht]

/-- C5 witness: concrete evaluations through the theorem at non-numeric and
below-one inputs. -/
theorem cook_time_servings_clamped_witness :
    validateCookTime (.jstr "abc") = 30 ∧ validateServings (.jstr "-3") = 4 :=
  ⟨(cook_time_servings_clamped (.jstr "abc") (.jstr "-3")).2.1 rfl,
   (cook_time_servings_clamped (.jstr "abc") (.jstr "-3")).2.2.2.2.2 (-3) rfl (by norm_num)⟩

theorem mem_of_mem_dropJsSpace {c : Char} {l : List Char} (h : c ∈ dropJsSpace l) :
    c ∈ l := List.dropWhile_subset _ h

theorem mem_of_mem_jsTrimL {c : Char} {l : List Char} (h : c ∈ jsTrimL l) : c ∈ l := by
  unfold jsTrimL at h
  rw [List.mem_reverse] at h
  have h2 := List.dropWhile_subset isJsSpace h
  rw [List.mem_reverse] at h2
  exact List.dropWhile_subset isJsSpace h2

theorem mem_of_mem_replaceMarkerGo {m : Char} {ms : List Char} :
    ∀ (fuel : Nat) (l : List Char) (c : Char), c ∈ replaceMarkerGo m ms fuel l → c ∈ l := by
  intro fuel
  induction fuel with
  | zero =>
    intro l c h
    cases l with
    | nil => simp [replaceMarkerGo] at h
    | cons x rest => simpa [replaceMarkerGo] using h
  | succ f ih =>
    intro l c h
    cases l with
    | nil => simpa [replaceMarkerGo] using h
    | cons x rest =>
      unfold replaceMarkerGo at h
      by_cases hp : ((m :: ms).isPrefixOf (x :: rest) : Bool)
      · rw [if_pos hp] at h
        have h1 := ih _ c h
        have h2 := mem_of_mem_dropJsSpace h1
        have h3 := List.drop_subset _ _ h2
        exact List.mem_cons_of_mem x h3
      · rw [if_neg hp] at h
        rcases List.mem_cons.mp h with h | h
        · simp [h]
        · exact List.mem_cons_of_mem x (ih _ c h)

theorem mem_of_mem_replaceMarker {marker : List Char} {l : List Char} {c : Char}
    (h : c ∈ replaceMarker marker l) : c ∈ l := by
  unfold replaceMarker at h
  cases marker with
  | nil => exact h
  | cons m ms => exact mem_of_mem_replaceMarkerGo _ _ _ h

theorem mem_of_mem_stripLeadingJsonToken {l : List Char} {c : Char}
    (h : c ∈ stripLeadingJsonToken l) : c ∈ l := by
  unfold stripLeadingJsonToken at h
  by_cases hp : (['j', 's', 'o', 'n'].isPrefixOf l : Bool)
  · simp only [hp, if_true] at h
    exact List.drop_subset _ _ (mem_of_mem_dropJsSpace h)
  · simpa [hp] using h

theorem mem_of_mem_cleanResponse {l : List Char} {c : Char}
    (h : c ∈ cleanResponse l) : c ∈ l := by
  unfold cleanResponse at h
  exact mem_of_mem_jsTrimL
    (mem_of_mem_replaceMarker (mem_of_mem_replaceMarker (mem_of_mem_stripLeadingJsonToken h)))

theorem idxOfChar_eq_none {c : Char} :
    ∀ {cs : List Char}, c ∉ cs → idxOfChar c cs = none := by
  intro cs
  induction cs with
  | nil => intro _; rfl
  | cons x rest ih =>
    intro h
    have hx : (x == c) = false := by
      simp only [List.mem_cons, not_or] at h
      simp [beq_iff_eq]
      exact fun hc => h.1 hc.symm
    simp only [idxOfChar, hx, if_false]
    rw [ih (by simp only [List.mem_cons, not_or] at h; exact h.2)]
    rfl

theorem findStartBrace_eq_none :
    ∀ {cs : List Char}, openBrace ∉ cs → findStartBrace cs = none := by
  intro cs
  induction cs with
  | nil => intro _; rfl
  | cons x rest ih =>
    intro h
    simp only [List.mem_cons, not_or] at h
    have hx : (x == openBrace) = false := by
      simp [beq_iff_eq]
      exact fun hc => h.1 hc.symm
    simp only [findStartBrace, hx, Bool.false_and, if_false]
    rw [ih h.2]
    rfl

theorem extractCandidate_eq_none {cs : List Char} (h : openBrace ∉ cs) :
    extractCandidate cs = none := by
  unfold extractCandidate
  rw [findStartBrace_eq_none h, idxOfChar_eq_none h]

/-- C7: the Response Normalizer, applied to a reply whose single JSON object
is wrapped in markdown fences behind commentary, returns the parsed embedded
object; applied to any text containing no brace character at all, it fails
with the invalid-format error. -/
theorem normalizer_extraction_spec :
    extractRecipeJson "Here you go:\n```json\n\x7b\"title\":\"X\"\x7d\n```"
      = .ok (.jobj [("title", .jstr "X")])
    ∧ ∀ s : String, (∀ c ∈ s.toList, c ≠ openBrace ∧ c ≠ closeBrace) →
        extractRecipeJson s = .error "🔧 Invalid response format from ChatGPT. Please try again." := by
  constructor
  · rfl
  · intro s hs
    unfold extractRecipeJson
    have hno : openBrace ∉ cleanResponse s.toList := by
      intro hmem
      exact (hs openBrace (mem_of_mem_cleanResponse hmem)).1 rfl
    rw [extractCandidate_eq_none hno]

/-- C7 witness: a brace-free text fails through the theorem. -/
theorem normalizer_extraction_spec_witness :
    extractRecipeJson "no json here at all"
      = .error "🔧 Invalid response format from ChatGPT. Please try again." :=
  normalizer_extraction_spec.2 "no json here at all" (by decide)

theorem strLength_beq_zero_eq_false {s : String} (h : s ≠ "") : (s.length == 0) = false := by
  cases s with
  | mk data =>
    cases data with
    | nil => exact absurd rfl h
    | cons c cs => simp [String.length]

/-- Inversion of a successful run of the Formatter: the title was a string
(trimmed into the Recipe), the ingredient and instruction values were arrays,
and the element-wise maps produced exactly the Recipe lists. -/
theorem formatRecipe_ok_inv (r : JVal) (rec : Recipe) (h : formatRecipe r = .ok rec) :
    ∃ (t : String) (ings inss : List JVal),
      jvGet r "title" = .jstr t
      ∧ jvGet r "ingredients" = .jarr ings
      ∧ jvGet r "instructions" = .jarr inss
      ∧ mapExcept formatIngredient ings = .ok rec.ingredients
      ∧ formatInstructionsFrom 0 inss = .ok rec.instructions
      ∧ rec.title = jsTrimS t := by
  unfold formatRecipe at h
  split at h
  · exact absurd h (by simp)
  split at h
  · exact absurd h (by simp)
  split at h
  · exact absurd h (by simp)
  split at h
  case _ ings hings =>
    split at h
    case _ e he => exact absurd h (by simp)
    case _ fmtIngs hmap =>
      split at h
      case _ inss hinss =>
        split at h
        case _ e he => exact absurd h (by simp)
        case _ fmtInss hinsmap =>
          split at h
          case _ t ht =>
            injection h with h
            refine ⟨t, ings, inss, ht, hings, hinss, ?_, ?_, ?_⟩
            · rw [← h]; exact hmap
            · rw [← h]; exact hinsmap
            · rw [← h]
          case _ hnt => exact absurd h (by simp)
      case _ hni => exact absurd h (by simp)
  case _ hna => exact absurd h (by simp)

/-- C8: a title that is a non-empty all-whitespace string passes the
truthiness check of the Formatter (truthiness is tested before trimming),
and whenever such a recipe is accepted, the canonical Recipe carries the
empty string as its title (`title.trim()`). -/
theorem whitespace_title_accepted_trims_to_empty (r : JVal) (s : String)
    (hts : jvGet r "title" = .jstr s) (hne : s ≠ "")
    (hws : ∀ c ∈ s.toList, isJsSpace c = true) :
    truthy (jvGet r "title") = true
    ∧ ∀ rec : Recipe, formatRecipe r = .ok rec → rec.title = "" := by
  have h1 : s.toList.dropWhile isJsSpace = [] :=
    List.dropWhile_eq_nil_iff.mpr (fun x hx => by simpa using hws x hx)
  have htrim : jsTrimS s = "" := by
    unfold jsTrimS jsTrimL
    rw [h1]
    rfl
  constructor
  · rw [hts]; simp [truthy, hne]
  · intro rec h
    obtain ⟨t, _, _, ht, _, _, _, _, htitle⟩ := formatRecipe_ok_inv r rec h
    rw [hts] at ht
    injection ht with ht
    rw [htitle, ← ht]
    exact htrim

/-- C8 witness: a one-space title on an otherwise well-formed raw recipe is
accepted and yields the empty canonical title. -/
theorem whitespace_title_accepted_trims_to_empty_witness :
    truthy (jvGet (.jobj [("title", .jstr " "), ("ingredients", .jarr [.jstr "water"]),
        ("instructions", .jarr [.jstr "boil"])]) "title") = true
    ∧ ({ title := ""
         description := .jstr "A delicious ChatGPT-generated recipe perfect for your kitchen."
         cookTime := 30
         difficulty := "medium"
         servings := 4
         ingredients := [⟨.jstr "water", .jstr "1", .jstr "piece"⟩]
         instructions := ["Step 1: boil"]
         dietaryTags := [.jstr "general"] } : Recipe).title = "" := by
  have h := whitespace_title_accepted_trims_to_empty
    (.jobj [("title", .jstr " "), ("ingredients", .jarr [.jstr "water"]),
        ("instructions", .jarr [.jstr "boil"])]) " " rfl (by decide) (by decide)
  exact ⟨h.1, h.2 _ rfl⟩

/-- C9: the Formatter is not total over arbitrary parsed JSON.  A truthy
non-array ingredients value (a non-zero number, a non-empty string) passes
the presence/length validation — truthiness holds and `.length === 0` is
false — and then formatting fails with the unclassified `TypeError` of
calling `.map` on it, not with the MissingIngredients schema error; likewise
for a truthy non-array instructions value once the ingredient map has
succeeded. -/
theorem formatRecipe_truthy_nonarray_typeError (r v : JVal)
    (hv : (∃ n : Int, n ≠ 0 ∧ v = .jnum n) ∨ (∃ s : String, s ≠ "" ∧ v = .jstr s))
    (ht : truthy (jvGet r "title") = true) :
    truthy v = true ∧ lengthEqZero v = false
    ∧ (jvGet r "ingredients" = v →
        truthy (jvGet r "instructions") = true →
        lengthEqZero (jvGet r "instructions") = false →
        formatRecipe r = .error .typeError)
    ∧ (jvGet r "instructions" = v →
        (∃ xs ys, jvGet r "ingredients" = .jarr xs ∧ xs ≠ []
          ∧ mapExcept formatIngredient xs = .ok ys) →
        formatRecipe r = .error .typeError) := by
  have hvt : truthy v = true := by
    rcases hv with ⟨n, hn, rfl⟩ | ⟨s1, hs1, rfl⟩
    · simp [truthy, hn]
    · simp [truthy, hs1]
  have hvl : lengthEqZero v = false := by
    rcases hv with ⟨n, hn, rfl⟩ | ⟨s1, hs1, rfl⟩
    · rfl
    · exact strLength_beq_zero_eq_false hs1
  have hvna : ∀ xs : List JVal, v ≠ .jarr xs := by
    rcases hv with ⟨n, hn, rfl⟩ | ⟨s1, hs1, rfl⟩ <;> intro xs <;> simp
  refine ⟨hvt, hvl, ?_, ?_⟩
  · intro hing hinsT hinsL
    unfold formatRecipe
    rw [ht, hing, hinsT, hinsL, hvt, hvl]
    simp only [Bool.not_true, Bool.false_or, if_false]
    rcases hv with ⟨n, hn, rfl⟩ | ⟨s1, hs1, rfl⟩ <;> rfl
  · intro hins hex
    obtain ⟨xs, ys, hing, hxs, hmap⟩ := hex
    have hlen : lengthEqZero (JVal.jarr xs) = false := by
      simp only [lengthEqZero]
      simpa using hxs
    unfold formatRecipe
    rw [ht, hing, hins, hvt, hvl, hlen]
    rcases hv with ⟨n, hn, rfl⟩ | ⟨s1, hs1, rfl⟩ <;>
      simp [hmap, truthy]

/-- C9 witness: a numeric ingredients field on an otherwise valid raw recipe
yields the unclassified type error. -/
theorem formatRecipe_truthy_nonarray_typeError_witness :
    formatRecipe (.jobj [("title", .jstr "T"), ("ingredients", .jnum 5),
        ("instructions", .jarr [.jstr "x"])]) = .error .typeError :=
  (formatRecipe_truthy_nonarray_typeError
      (.jobj [("title", .jstr "T"), ("ingredients", .jnum 5),
        ("instructions", .jarr [.jstr "x"])])
      (.jnum 5) (Or.inl ⟨5, by norm_num, rfl⟩) rfl).2.2.1 rfl rfl rfl

theorem mapExcept_ok_inv {α β : Type} {f : α → Except FmtError β} :
    ∀ {xs : List α} {ys : List β}, mapExcept f xs = .ok ys →
      ys.length = xs.length
      ∧ ∀ (i : Nat) (h1 : i < xs.length) (h2 : i < ys.length),
          f (xs.get ⟨i, h1⟩) = .ok (ys.get ⟨i, h2⟩) := by
  intro xs
  induction xs with
  | nil =>
    intro ys h
    unfold mapExcept at h
    injection h with h
    subst h
    exact ⟨rfl, fun i h1 h2 => absurd h1 (by simp)⟩
  | cons x xs ih =>
    intro ys h
    unfold mapExcept at h
    cases hfx : f x with
    | error e => rw [hfx] at h; simp at h
    | ok y =>
      rw [hfx] at h
      cases hrest : mapExcept f xs with
      | error e => rw [hrest] at h; simp at h
      | ok ys0 =>
        rw [hrest] at h
        simp only [Except.ok.injEq] at h
        subst h
        obtain ⟨hl, hp⟩ := ih hrest
        refine ⟨by simp [hl], ?_⟩
        intro i h1 h2
        cases i with
        | zero => simpa using hfx
        | succ j =>
          have hj1 : j < xs.length := by simpa using h1
          have hj2 : j < ys0.length := by simpa using h2
          simpa using hp j hj1 hj2

theorem formatInstructionsFrom_ok_inv :
    ∀ (xs : List JVal) (k : Nat) (ys : List String), formatInstructionsFrom k xs = .ok ys →
      ys.length = xs.length
      ∧ ∀ (i : Nat) (h1 : i < xs.length) (h2 : i < ys.length),
          formatInstruction (k + i) (xs.get ⟨i, h1⟩) = .ok (ys.get ⟨i, h2⟩) := by
  intro xs
  induction xs with
  | nil =>
    intro k ys h
    unfold formatInstructionsFrom at h
    injection h with h
    subst h
    exact ⟨rfl, fun i h1 h2 => absurd h1 (by simp)⟩
  | cons x xs ih =>
    intro k ys h
    unfold formatInstructionsFrom at h
    cases hfx : formatInstruction k x with
    | error e => rw [hfx] at h; simp at h
    | ok y =>
      rw [hfx] at h
      cases hrest : formatInstructionsFrom (k + 1) xs with
      | error e => rw [hrest] at h; simp at h
      | ok ys0 =>
        rw [hrest] at h
        simp only [Except.ok.injEq] at h
        subst h
        obtain ⟨hl, hp⟩ := ih (k + 1) ys0 hrest
        refine ⟨by simp [hl], ?_⟩
        intro i h1 h2
        cases i with
        | zero => simpa using hfx
        | succ j =>
          have hj1 : j < xs.length := by simpa using h1
          have hj2 : j < ys0.length := by simpa using h2
          have heq : k + (j + 1) = (k + 1) + j := by omega
          rw [heq]
          simpa using hp j hj1 hj2

/-- C10: for every raw recipe the Formatter accepts, the ingredient and
instruction values were arrays, the canonical lists have the same lengths as
the raw arrays, and the i-th output entry is exactly the formatting of the
i-th input entry (order and count preservation). -/
theorem formatRecipe_preserves_counts_order (r : JVal) (rec : Recipe)
    (h : formatRecipe r = .ok rec) :
    ∃ ings inss : List JVal,
      jvGet r "ingredients" = .jarr ings ∧ jvGet r "instructions" = .jarr inss
      ∧ rec.ingredients.length = ings.length ∧ rec.instructions.length = inss.length
      ∧ (∀ (i : Nat) (h1 : i < ings.length) (h2 : i < rec.ingredients.length),
          formatIngredient (ings.get ⟨i, h1⟩) = .ok (rec.ingredients.get ⟨i, h2⟩))
      ∧ (∀ (i : Nat) (h1 : i < inss.length) (h2 : i < rec.instructions.length),
          formatInstruction i (inss.get ⟨i, h1⟩) = .ok (rec.instructions.get ⟨i, h2⟩)) := by
  obtain ⟨t, ings, inss, ht, hing, hins, hmap, hinsmap, htitle⟩ := formatRecipe_ok_inv r rec h
  obtain ⟨hl1, hp1⟩ := mapExcept_ok_inv hmap
  obtain ⟨hl2, hp2⟩ := formatInstructionsFrom_ok_inv inss 0 rec.instructions hinsmap
  exact ⟨ings, inss, hing, hins, hl1, hl2, hp1,
    fun i h1 h2 => by simpa using hp2 i h1 h2⟩

/-- C10 witness: a concrete two-ingredient, two-instruction raw recipe is
preserved element-wise through the theorem. -/
theorem formatRecipe_preserves_counts_order_witness :
    ∃ ings inss : List JVal,
      jvGet (.jobj [("title", .jstr "Soup"),
          ("ingredients", .jarr [.jstr "water", .jobj [("name", .jstr "salt")]]),
          ("instructions", .jarr [.jstr "boil", .jstr "Step 9: stir"])]) "ingredients"
        = .jarr ings
      ∧ jvGet (.jobj [("title", .jstr "Soup"),
          ("ingredients", .jarr [.jstr "water", .jobj [("name", .jstr "salt")]]),
          ("instructions", .jarr [.jstr "boil", .jstr "Step 9: stir"])]) "instructions"
        = .jarr inss
      ∧ ({ title := "Soup"
           description := .jstr "A delicious ChatGPT-generated recipe perfect for your kitchen."
           cookTime := 30
           difficulty := "medium"
           servings := 4
           ingredients := [⟨.jstr "water", .jstr "1", .jstr "piece"⟩,
             ⟨.jstr "salt", .jstr "1", .jstr "piece"⟩]
           instructions := ["Step 1: boil", "Step 2: stir"]
           dietaryTags := [.jstr "general"] } : Recipe).ingredients.length = ings.length
      ∧ ({ title := "Soup"
           description := .jstr "A delicious ChatGPT-generated recipe perfect for your kitchen."
           cookTime := 30
           difficulty := "medium"
           servings := 4
           ingredients := [⟨.jstr "water", .jstr "1", .jstr "piece"⟩,
             ⟨.jstr "salt", .jstr "1", .jstr "piece"⟩]
           instructions := ["Step 1: boil", "Step 2: stir"]
           dietaryTags := [.jstr "general"] } : Recipe).instructions.length = inss.length
      ∧ (∀ (i : Nat) (h1 : i < ings.length)
            (h2 : i < ([⟨.jstr "water", .jstr "1", .jstr "piece"⟩,
              ⟨.jstr "salt", .jstr "1", .jstr "piece"⟩] : List FmtIngredient).length),
          formatIngredient (ings.get ⟨i, h1⟩)
            = .ok (([⟨.jstr "water", .jstr "1", .jstr "piece"⟩,
              ⟨.jstr "salt", .jstr "1", .jstr "piece"⟩] : List FmtIngredient).get ⟨i, h2⟩))
      ∧ (∀ (i : Nat) (h1 : i < inss.length)
            (h2 : i < (["Step 1: boil", "Step 2: stir"] : List String).length),
          formatInstruction i (inss.get ⟨i, h1⟩)
            = .ok ((["Step 1: boil", "Step 2: stir"] : List String).get ⟨i, h2⟩)) :=
  formatRecipe_preserves_counts_order
    (.jobj [("title", .jstr "Soup"),
        ("ingredients", .jarr [.jstr "water", .jobj [("name", .jstr "salt")]]),
        ("instructions", .jarr [.jstr "boil", .jstr "Step 9: stir"])])
    { title := "Soup"
      description := .jstr "A delicious ChatGPT-generated recipe perfect for your kitchen."
      cookTime := 30
      difficulty := "medium"
      servings := 4
      ingredients := [⟨.jstr "water", .jstr "1", .jstr "piece"⟩,
        ⟨.jstr "salt", .jstr "1", .jstr "piece"⟩]
      instructions := ["Step 1: boil", "Step 2: stir"]
      dietaryTags := [.jstr "general"] }
    rfl

theorem formatIngredient_error {v : JVal} {e : FmtError}
    (h : formatIngredient v = .error e) : e = .typeError := by
  cases v <;> simp [formatIngredient] at h <;> exact h.symm

theorem formatInstruction_error {k : Nat} {v : JVal} {e : FmtError}
    (h : formatInstruction k v = .error e) : e = .typeError := by
  cases v <;> simp [formatInstruction] at h <;> exact h.symm

theorem mapExcept_formatIngredient_error :
    ∀ {xs : List JVal} {e : FmtError},
      mapExcept formatIngredient xs = .error e → e = .typeError := by
  intro xs
  induction xs with
  | nil => intro e h; simp [mapExcept] at h
  | cons x xs ih =>
    intro e h
    unfold mapExcept at h
    cases hfx : formatIngredient x with
    | error e2 =>
      rw [hfx] at h
      simp only [Except.error.injEq] at h
      subst h
      exact formatIngredient_error hfx
    | ok y =>
      rw [hfx] at h
      cases hrest : mapExcept formatIngredient xs with
      | error e2 =>
        rw [hrest] at h
        simp only [Except.error.injEq] at h
        subst h
        exact ih hrest
      | ok ys => rw [hrest] at h; simp at h

theorem formatInstructionsFrom_error :
    ∀ {xs : List JVal} {k : Nat} {e : FmtError},
      formatInstructionsFrom k xs = .error e → e = .typeError := by
  intro xs
  induction xs with
  | nil => intro k e h; simp [formatInstructionsFrom] at h
  | cons x xs ih =>
    intro k e h
    unfold formatInstructionsFrom at h
    cases hfx : formatInstruction k x with
    | error e2 =>
      rw [hfx] at h
      simp only [Except.error.injEq] at h
      subst h
      exact formatInstruction_error hfx
    | ok y =>
      rw [hfx] at h
      cases hrest : formatInstructionsFrom (k + 1) xs with
      | error e2 =>
        rw [hrest] at h
        simp only [Except.error.injEq] at h
        subst h
        exact ih hrest
      | ok ys => rw [hrest] at h; simp at h

theorem validate_true_facts (recipe : JVal) (h : validateRecipeStructure recipe = true) :
    truthy recipe = true
    ∧ truthy (jvGet recipe "title") = true
    ∧ (∃ ings : List JVal, jvGet recipe "ingredients" = .jarr ings ∧ 0 < ings.length)
    ∧ (∃ inss : List JVal, jvGet recipe "instructions" = .jarr inss ∧ 0 < inss.length) := by
  simp only [validateRecipeStructure, Bool.and_eq_true] at h
  obtain ⟨⟨⟨⟨⟨ht, hd⟩, hi⟩, hn⟩, hia⟩, hna⟩ := h
  refine ⟨?_, ht, ?_, ?_⟩
  · cases recipe <;> first
      | rfl
      | simp [jvGet, truthy] at ht
  · cases hjv : jvGet recipe "ingredients" <;> rw [hjv] at hia <;>
      first
        | exact ⟨_, rfl, by simpa using hia⟩
        | simp at hia
  · cases hjv : jvGet recipe "instructions" <;> rw [hjv] at hna <;>
      first
        | exact ⟨_, rfl, by simpa using hna⟩
        | simp at hna

theorem formatRecipe_error_kind (r : JVal)
    (ht : truthy (jvGet r "title") = true)
    (ings : List JVal) (hing : jvGet r "ingredients" = .jarr ings) (hil : 0 < ings.length)
    (inss : List JVal) (hins : jvGet r "instructions" = .jarr inss) (hnl : 0 < inss.length)
    (e : FmtError) (h : formatRecipe r = .error e) : e = .typeError := by
  have hle1 : lengthEqZero (JVal.jarr ings) = false := by
    simp only [lengthEqZero]
    simp [Nat.pos_iff_ne_zero.mp hil]
  have hle2 : lengthEqZero (JVal.jarr inss) = false := by
    simp only [lengthEqZero]
    simp [Nat.pos_iff_ne_zero.mp hnl]
  unfold formatRecipe at h
  rw [ht, hing, hins, hle1, hle2] at h
  simp only [truthy, Bool.not_true, Bool.or_false, Bool.false_eq_true, if_false] at h
  cases hmap : mapExcept formatIngredient ings with
  | error e2 =>
    rw [hmap] at h
    simp only [Except.error.injEq] at h
    subst h
    exact mapExcept_formatIngredient_error hmap
  | ok ys =>
    rw [hmap] at h
    cases hinsmap : formatInstructionsFrom 0 inss with
    | error e2 =>
      rw [hinsmap] at h
      simp only [Except.error.injEq] at h
      subst h
      exact formatInstructionsFrom_error hinsmap
    | ok zs =>
      rw [hinsmap] at h
      cases hjt : jvGet r "title" with
      | jstr t => rw [hjt] at h; simp at h
      | jnull => rw [hjt] at ht; simp [truthy] at ht
      | jbool b =>
        rw [hjt] at h
        simp only [Except.error.injEq] at h
        subst h
        rfl
      | jnum n =>
        rw [hjt] at h
        simp only [Except.error.injEq] at h
        subst h
        rfl
      | jarr xs =>
        rw [hjt] at h
        simp only [Except.error.injEq] at h
        subst h
        rfl
      | jobj fs =>
        rw [hjt] at h
        simp only [Except.error.injEq] at h
        subst h
        rfl

theorem formatIngredient_ok_of_ok {v : JVal} (h : ingEntryOk v = true) :
    ∃ w, formatIngredient v = .ok w := by
  cases v <;> first
    | exact ⟨_, rfl⟩
    | simp [ingEntryOk] at h

theorem mapExcept_formatIngredient_ok :
    ∀ {xs : List JVal}, (∀ x ∈ xs, ingEntryOk x = true) →
      ∃ ys, mapExcept formatIngredient xs = .ok ys := by
  intro xs
  induction xs with
  | nil => intro _; exact ⟨[], rfl⟩
  | cons x xs ih =>
    intro h
    obtain ⟨w, hw⟩ := formatIngredient_ok_of_ok (h x (by simp))
    obtain ⟨ys, hys⟩ := ih (fun z hz => h z (by simp [hz]))
    refine ⟨w :: ys, ?_⟩
    unfold mapExcept
    rw [hw, hys]

theorem formatInstructionsFrom_ok :
    ∀ {xs : List JVal} (k : Nat), (∀ x ∈ xs, isStringVal x = true) →
      ∃ ys, formatInstructionsFrom k xs = .ok ys := by
  intro xs
  induction xs with
  | nil => intro k _; exact ⟨[], rfl⟩
  | cons x xs ih =>
    intro k h
    have hx := h x (by simp)
    obtain ⟨sx, rfl⟩ : ∃ sx, x = JVal.jstr sx := by
      cases x <;> first | exact ⟨_, rfl⟩ | simp [isStringVal] at hx
    obtain ⟨ys, hys⟩ := ih (k + 1) (fun z hz => h z (by simp [hz]))
    refine ⟨fmtInstr k sx :: ys, ?_⟩
    unfold formatInstructionsFrom formatInstruction
    rw [hys]

theorem formatRecipe_ok_of_wellTyped (r : JVal)
    (hval : validateRecipeStructure r = true) (hwt : wellTypedEntries r = true) :
    ∃ rec, formatRecipe r = .ok rec := by
  obtain ⟨htr, ht, ⟨ings, hing, hil⟩, ⟨inss, hins, hnl⟩⟩ := validate_true_facts r hval
  simp only [wellTypedEntries, Bool.and_eq_true] at hwt
  obtain ⟨⟨hwtt, hwti⟩, hwtn⟩ := hwt
  rw [hing] at hwti
  rw [hins] at hwtn
  obtain ⟨t, hjt⟩ : ∃ t, jvGet r "title" = JVal.jstr t := by
    cases hjv : jvGet r "title" <;> rw [hjv] at hwtt <;>
      first | exact ⟨_, rfl⟩ | simp [isStringVal] at hwtt
  obtain ⟨ys, hys⟩ := mapExcept_formatIngredient_ok (by simpa using hwti)
  obtain ⟨zs, hzs⟩ := formatInstructionsFrom_ok 0 (by simpa using hwtn)
  have hle1 : lengthEqZero (JVal.jarr ings) = false := by
    simp only [lengthEqZero]
    simp [Nat.pos_iff_ne_zero.mp hil]
  have hle2 : lengthEqZero (JVal.jarr inss) = false := by
    simp only [lengthEqZero]
    simp [Nat.pos_iff_ne_zero.mp hnl]
  unfold formatRecipe
  rw [ht, hing, hins, hle1, hle2]
  simp only [truthy, Bool.not_true, Bool.or_false, Bool.false_eq_true, if_false, hys, hzs, hjt]
  exact ⟨_, rfl⟩

/-- C2: rejection between `JSON.parse` and the canonical Recipe with a
schema/formatting error happens exactly when the provider-side structure
validation fails — which requires a truthy `description` in addition to the
three fields of the claim; and every parsed value passing that validation
whose entries are well-typed (string title, non-null ingredient entries,
string instruction entries) is promoted to a canonical Recipe, while
ill-typed entries surface as an unclassified type error instead. -/
theorem promotion_schema_rejection_spec (recipe : JVal) :
    (promoteParsedRecipe recipe = .error .schemaError
      ↔ validateRecipeStructure recipe = false)
    ∧ (validateRecipeStructure recipe = true → wellTypedEntries recipe = true →
        ∃ rec, promoteParsedRecipe recipe = .ok rec) := by
  have hpromote_of_val : ∀ (hval : validateRecipeStructure recipe = true),
      promoteParsedRecipe recipe
        = (match formatRecipe recipe with
           | .ok rec => .ok rec
           | .error .typeError => .error .typeError
           | .error _ => .error .schemaError) := by
    intro hval
    obtain ⟨htr, ht, _, _⟩ := validate_true_facts recipe hval
    unfold promoteParsedRecipe
    rw [hval, htr, ht]
    simp
  constructor
  · constructor
    · intro h
      by_contra hval
      rw [Bool.not_eq_false] at hval
      rw [hpromote_of_val hval] at h
      obtain ⟨htr, ht, ⟨ings, hing, hil⟩, ⟨inss, hins, hnl⟩⟩ := validate_true_facts recipe hval
      cases hfr : formatRecipe recipe with
      | ok rec => rw [hfr] at h; simp at h
      | error e =>
        have he : e = .typeError :=
          formatRecipe_error_kind recipe ht ings hing hil inss hins hnl e hfr
        subst he
        rw [hfr] at h
        simp at h
    · intro hval
      unfold promoteParsedRecipe
      rw [hval]
      simp
  · intro hval hwt
    obtain ⟨rec, hrec⟩ := formatRecipe_ok_of_wellTyped recipe hval hwt
    refine ⟨rec, ?_⟩
    rw [hpromote_of_val hval, hrec]

/-- C2 witness: a parsed object with truthy title, description and non-empty
well-typed arrays is promoted, through the theorem. -/
theorem promotion_schema_rejection_spec_witness :
    ∃ rec, promoteParsedRecipe (.jobj [("title", .jstr "X"), ("description", .jstr "d"),
        ("ingredients", .jarr [.jstr "water"]), ("instructions", .jarr [.jstr "boil"])])
      = .ok rec :=
  (promotion_schema_rejection_spec
      (.jobj [("title", .jstr "X"), ("description", .jstr "d"),
        ("ingredients", .jarr [.jstr "water"]), ("instructions", .jarr [.jstr "boil"])])).2
    rfl rfl

/-- C2 counterexample: a parsed object with non-empty title, non-empty
ingredients array and non-empty instructions array — the three fields of the
claim — but no description is nevertheless rejected with a schema error,
refuting the claimed equivalence and the claimed promotion. -/
theorem promotion_schema_rejection_cex :
    truthy (jvGet (.jobj [("title", .jstr "X"),
        ("ingredients", .jarr [.jstr "water"]),
        ("instructions", .jarr [.jstr "boil"])]) "title") = true
    ∧ jvGet (.jobj [("title", .jstr "X"),
        ("ingredients", .jarr [.jstr "water"]),
        ("instructions", .jarr [.jstr "boil"])]) "ingredients" = .jarr [.jstr "water"]
    ∧ jvGet (.jobj [("title", .jstr "X"),
        ("ingredients", .jarr [.jstr "water"]),
        ("instructions", .jarr [.jstr "boil"])]) "instructions" = .jarr [.jstr "boil"]
    ∧ promoteParsedRecipe (.jobj [("title", .jstr "X"),
        ("ingredients", .jarr [.jstr "water"]),
        ("instructions", .jarr [.jstr "boil"])]) = .error .schemaError := by
  refine ⟨rfl, rfl, rfl, rfl⟩

theorem stripCI_step (rest : List Char) :
    stripCI ['s', 't', 'e', 'p', ' '] ('S' :: 't' :: 'e' :: 'p' :: ' ' :: rest)
      = some rest := rfl

theorem matchStepNum_canonical (n : Nat) (t : List Char) :
    matchStepNum (stepPrefixChars n ++ t) = some (dropJsSpace t) := by
  have hdigits : ∀ c ∈ natDec n, Char.isDigit c := by
    intro c hc
    exact natDec_all_digits n c hc
  have hne : (natDec n).isEmpty = false := by
    cases hnd : natDec n with
    | nil => exact absurd hnd (natDec_ne_nil n)
    | cons a as => rfl
  have htake : ((natDec n) ++ ([':', ' '] ++ t)).takeWhile Char.isDigit = natDec n := by
    rw [List.takeWhile_append_of_pos hdigits]
    rw [show ([':', ' '] ++ t).takeWhile Char.isDigit = [] from
      List.takeWhile_cons_of_neg (by decide)]
    simp
  have hdrop : ((natDec n) ++ ([':', ' '] ++ t)).dropWhile Char.isDigit = ':' :: ' ' :: t := by
    rw [List.dropWhile_append_of_pos hdigits]
    exact List.dropWhile_cons_of_neg (by decide)
  have hstrip : stripCI ['s', 't', 'e', 'p', ' '] (stepPrefixChars n ++ t)
      = some ((natDec n) ++ ([':', ' '] ++ t)) := by
    show stripCI ['s', 't', 'e', 'p', ' ']
        ('S' :: 't' :: 'e' :: 'p' :: ' ' :: ((natDec n ++ [':', ' ']) ++ t))
      = some ((natDec n) ++ ([':', ' '] ++ t))
    rw [stripCI_step, List.append_assoc]
  unfold matchStepNum
  rw [hstrip]
  simp only [htake, hdrop, hne, Bool.false_eq_true, if_false]
  show some (dropJsSpace (' ' :: t)) = some (dropJsSpace t)
  unfold dropJsSpace
  rw [List.dropWhile_cons_of_pos (by decide)]

theorem cleanInstruction_canonical (n : Nat) (l : List Char) :
    cleanInstruction (stepPrefixChars n ++ cleanInstruction l) = cleanInstruction l := by
  have h2 : stripStepPrefix (stepPrefixChars n ++ cleanInstruction l)
      = dropJsSpace (cleanInstruction l) := by
    unfold stripStepPrefix
    rw [matchStepNum_canonical]
  show jsTrimL (stripStepPrefix (stepPrefixChars n ++ cleanInstruction l)) = cleanInstruction l
  rw [h2]
  rw [show dropJsSpace (cleanInstruction l) = cleanInstruction l from
    jsTrimL_no_leading (stripStepPrefix l)]
  exact jsTrimL_idem (stripStepPrefix l)

theorem fmtInstr_comp (i j : Nat) (s : String) :
    fmtInstr i (fmtInstr j s) = fmtInstr i s := by
  unfold fmtInstr
  have htl : (String.mk (stepPrefixChars (j + 1) ++ cleanInstruction s.toList)).toList
      = stepPrefixChars (j + 1) ++ cleanInstruction s.toList := rfl
  rw [htl, cleanInstruction_canonical]

theorem fmtInstrListFrom_idem :
    ∀ (xs : List String) (k : Nat),
      fmtInstrListFrom k (fmtInstrListFrom k xs) = fmtInstrListFrom k xs := by
  intro xs
  induction xs with
  | nil => intro k; rfl
  | cons x rest ih =>
    intro k
    show fmtInstr k (fmtInstr k x) :: fmtInstrListFrom (k + 1) (fmtInstrListFrom (k + 1) rest)
      = fmtInstr k x :: fmtInstrListFrom (k + 1) rest
    rw [fmtInstr_comp, ih]

theorem fmtInstrListFrom_length :
    ∀ (xs : List String) (k : Nat), (fmtInstrListFrom k xs).length = xs.length := by
  intro xs
  induction xs with
  | nil => intro k; rfl
  | cons x rest ih => intro k; simp [fmtInstrListFrom, ih]

theorem isPrefixOf_append_self :
    ∀ (l t : List Char), l.isPrefixOf (l ++ t) = true := by
  intro l t
  rw [List.isPrefixOf_iff_prefix]
  exact ⟨t, rfl⟩

theorem fmtInstrListFrom_get :
    ∀ (xs : List String) (k i : Nat) (h1 : i < (fmtInstrListFrom k xs).length),
      ∃ core : List Char,
        (fmtInstrListFrom k xs).get ⟨i, h1⟩ = String.mk (stepPrefixChars (k + i + 1) ++ core) := by
  intro xs
  induction xs with
  | nil => intro k i h1; exact absurd h1 (by simp [fmtInstrListFrom])
  | cons x rest ih =>
    intro k i h1
    cases i with
    | zero => exact ⟨cleanInstruction x.toList, rfl⟩
    | succ j =>
      have hj : j < (fmtInstrListFrom (k + 1) rest).length := by
        simpa [fmtInstrListFrom] using h1
      obtain ⟨core, hcore⟩ := ih (k + 1) j hj
      refine ⟨core, ?_⟩
      show (fmtInstrListFrom (k + 1) rest).get ⟨j, hj⟩ = _
      rw [hcore]
      have : k + 1 + j = k + (j + 1) := by omega
      rw [this]

/-- C6 (amended): the Formatter strips one pre-existing `Step N:` prefix
from every instruction and re-applies canonical sequential `Step {i+1}: `
prefixes; re-running it on its own output returns the list unchanged (true
idempotence), the length is preserved, and every output entry starts with
the canonical prefix for its position.  The regex removes only one stacked
prefix per pass, so an output entry may still carry a nested `Step N:` token
after the canonical prefix (see the counterexample). -/
theorem instruction_formatting_idempotent (xs : List String) :
    fmtInstrList (fmtInstrList xs) = fmtInstrList xs
    ∧ (fmtInstrList xs).length = xs.length
    ∧ ∀ (i : Nat) (h : i < (fmtInstrList xs).length),
        (stepPrefixChars (i + 1)).isPrefixOf ((fmtInstrList xs).get ⟨i, h⟩).toList = true := by
  refine ⟨fmtInstrListFrom_idem xs 0, fmtInstrListFrom_length xs 0, ?_⟩
  intro i h
  have h0 : i < (fmtInstrListFrom 0 xs).length := h
  obtain ⟨core, hcore⟩ := fmtInstrListFrom_get xs 0 i h0
  show (stepPrefixChars (i + 1)).isPrefixOf
    ((fmtInstrListFrom 0 xs).get ⟨i, h0⟩).toList = true
  rw [hcore]
  rw [show (0 : Nat) + i + 1 = i + 1 from by omega]
  exact isPrefixOf_append_self _ _

/-- C6 witness: the already-prefixed instruction of the spec example is
renumbered from 1, idempotently, with the canonical prefix in place. -/
theorem instruction_formatting_idempotent_witness :
    fmtInstrList (fmtInstrList ["Step 3: chop"]) = fmtInstrList ["Step 3: chop"]
    ∧ (stepPrefixChars 1).isPrefixOf
        ((fmtInstrList ["Step 3: chop"]).get ⟨0, by decide⟩).toList = true :=
  ⟨(instruction_formatting_idempotent ["Step 3: chop"]).1,
   (instruction_formatting_idempotent ["Step 3: chop"]).2.2 0 (by decide)⟩

/-- C6 counterexample: an instruction carrying two stacked step prefixes is
a fixed point of the Formatter, so re-running the Formatter on this
already-formatted instruction leaves it with two strippable `Step N:`
prefixes, not exactly one. -/
theorem instruction_formatting_nested_prefix_cex :
    fmtInstrList ["Step 1: Step 5: mix"] = ["Step 1: Step 5: mix"]
    ∧ fmtInstrList (fmtInstrList ["Step 1: Step 5: mix"]) = ["Step 1: Step 5: mix"]
    ∧ countStepPrefixes "Step 1: Step 5: mix" = 2 := ⟨rfl, rfl, rfl⟩

/-- C3 (amended): `getRecipeEnhancements` never rejects — every inner
promise carries its own catch handler, encoded in the total `JsOutcome`
match — and when the rich tip path fails while `generateSimpleTips` behaves
as written, the returned `cookingTips` is the hardcoded simple-tips object
with all four minimal categories populated; but when both tip generators are
made to throw, the returned `cookingTips` is the empty array, with no
category populated. -/
theorem tips_fallback_spec (ings : List String) (image : JsOutcome JVal) :
    ((getRecipeEnhancements
        (generateCookingTipsWith .thrown (.ok (generateSimpleTips ings))) image).cookingTips
      = generateSimpleTips ings)
    ∧ minimalCategoriesPopulated (generateSimpleTips ings) = true
    ∧ (getRecipeEnhancements (generateCookingTipsWith .thrown .thrown) image).cookingTips
      = .jarr [] := by
  refine ⟨rfl, ?_, rfl⟩
  cases ings with
  | nil => rfl
  | cons x rest => rfl

/-- C3 counterexample: with both tip generators made to throw, the
enhancements object still comes back (no error), but its `cookingTips` is
the empty array — not a structured tips object with the hardcoded minimal
categories populated. -/
theorem tips_both_thrown_cex :
    (getRecipeEnhancements (generateCookingTipsWith .thrown .thrown) .thrown).cookingTips
      = .jarr []
    ∧ minimalCategoriesPopulated
        ((getRecipeEnhancements (generateCookingTipsWith .thrown .thrown) .thrown).cookingTips)
      = false := ⟨rfl, rfl⟩

end SmartSnap
